import Mathlib

/-!
Verification of the dose lifecycle model and dose collection manager of the
doser repository (src/doser/__init__.py), shallowly embedded in Lean 4.

Modelling conventions:
- Timestamps (pendulum DateTime, UTC) and durations (pendulum Duration) are
  modelled as integers, counting clock ticks (datetime time is discrete at
  microsecond resolution).  Progress fractions are rationals.
- pendulum Period objects are modelled as a pair of endpoints.  In pendulum 2.x,
  Period.__contains__ tests `self.start <= dt <= self.end`, i.e. membership is
  inclusive at BOTH endpoints; the embedding mirrors this.
- Python truthiness of a Period (a timedelta subclass) is False exactly when its
  signed length is zero; the walrus-guarded branches of prog_value and time_left
  mirror this.
- Every call of pendulum.now("utc") in the source is made explicit as a time
  parameter.  Dose.status reads the clock once (walrus n); prog_value reads it
  once inside current_period (via status) and once more in period.end.diff(),
  hence two parameters t1, t2 there.  DateTime.diff defaults to abs=True, which
  is the absolute value below.
- Python exceptions (ZeroDivisionError from /, ValueError from time.sleep on a
  negative argument) are modelled with Option: none is a raised exception.
-/

set_option autoImplicit false

namespace Doser

/-- The three lifecycle phases of class DoseStatus. -/
inductive DoseStatus where
  | processing
  | active
  | expired
deriving DecidableEq, Repr

/-- IngestionMethod: name, onset duration, active duration (clock ticks). -/
structure IngestionMethod where
  name : String
  onset : ℤ
  duration : ℤ
deriving DecidableEq, Repr

/-- A pendulum Period, modelled by its two endpoints (clock ticks). -/
structure Period where
  start : ℤ
  stop : ℤ
deriving DecidableEq, Repr

/-- Period membership: pendulum 2.x Period.__contains__ is
`self.start <= dt <= self.end`, inclusive at both endpoints. -/
def Period.containsTime (p : Period) (t : ℤ) : Prop :=
  p.start ≤ t ∧ t ≤ p.stop

instance (p : Period) (t : ℤ) : Decidable (p.containsTime t) := by
  unfold Period.containsTime
  exact inferInstance

/-- Period.total_seconds(): the signed length of the period. -/
def Period.length (p : Period) : ℤ :=
  p.stop - p.start

/-- The Dose record: strain, method, ingestion time, and the two stored
windows built by Dose.new. -/
structure Dose where
  strain : String
  method : IngestionMethod
  ingested : ℤ
  processing_time : Period
  active_time : Period
deriving DecidableEq, Repr

/-- Dose.new: processing_time = Period(ingested, ingested + onset),
active_time = Period(proc_time.end, proc_time.end + duration).
The Python default `ingested or now("utc")` is made explicit: callers pass
the current clock reading when the argument is omitted. -/
def Dose.new (strain : String) (method : IngestionMethod) (ingested : ℤ) : Dose :=
  ⟨strain, method, ingested,
    ⟨ingested, ingested + method.onset⟩,
    ⟨ingested + method.onset, ingested + method.onset + method.duration⟩⟩

/-- Dose.now_from_this: a new Dose taken at the current clock reading tnow. -/
def Dose.now_from_this (d : Dose) (tnow : ℤ) : Dose :=
  Dose.new d.strain d.method tnow

/-- Dose.status at clock reading tnow: the walrus `n := now("utc")` is read
once, then tested against the two stored periods in order. -/
def Dose.status (d : Dose) (tnow : ℤ) : DoseStatus :=
  if d.processing_time.containsTime tnow then DoseStatus.processing
  else if d.active_time.containsTime tnow then DoseStatus.active
  else DoseStatus.expired

/-- Dose.current_period at clock reading tnow. -/
def Dose.current_period (d : Dose) (tnow : ℤ) : Option Period :=
  match d.status tnow with
  | DoseStatus.processing => some d.processing_time
  | DoseStatus.active => some d.active_time
  | DoseStatus.expired => none

/-- Python float division, with ZeroDivisionError modelled as none. -/
def qdivE (a b : ℚ) : Option ℚ :=
  if b = 0 then none else some (a / b)

/-- Dose.prog_value.  t1 is the clock reading taken inside current_period
(via status); t2 the reading taken by period.end.diff().  The walrus guard
`if period := self.current_period:` is falsy when current_period is None OR
the period has zero length (bool of a timedelta), in which case 1 is
returned without dividing. -/
def Dose.prog_value (d : Dose) (t1 t2 : ℤ) : ℚ :=
  match d.current_period t1 with
  | some p => if p.length = 0 then 1 else ((|p.stop - t2| : ℤ) : ℚ) / (p.length : ℚ)
  | none => 1

/-- Dose.prog_value with the division-by-zero exception made explicit:
none models a raised ZeroDivisionError. -/
def Dose.prog_valueE (d : Dose) (t1 t2 : ℤ) : Option ℚ :=
  match d.current_period t1 with
  | some p => if p.length = 0 then some 1 else qdivE ((|p.stop - t2| : ℤ) : ℚ) (p.length : ℚ)
  | none => some 1

/-- Dose.time_left: some r is the remaining duration rendered in words;
none is the "Expired" marker (also produced, via falsiness, by a
zero-length current period). -/
def Dose.time_left (d : Dose) (t1 t2 : ℤ) : Option ℤ :=
  match d.current_period t1 with
  | some p => if p.length = 0 then none else some |p.stop - t2|
  | none => none

/-- Rank of a status in the lifecycle order processing, active, expired. -/
def DoseStatus.rank : DoseStatus → ℕ
  | DoseStatus.processing => 0
  | DoseStatus.active => 1
  | DoseStatus.expired => 2

/-!
The dose collection manager (class DoseManager).  A DoseRow is identified by
object identity in Python (DataRow defines no __eq__); rowId models that
identity, and the lists the manager builds never hold the same row twice.
-/

/-- One row of the manager table: the wrapped Dose plus the object identity
of the DoseRow widget. -/
structure DoseRow where
  rowId : ℕ
  dose : Dose
deriving DecidableEq, Repr

/-- DoseManager.add_dose: appends a row wrapping Dose.new, the ingested
argument accepted as-is. -/
def add_dose (rows : List DoseRow) (newId : ℕ) (strain : String)
    (method : IngestionMethod) (ingested : ℤ) : List DoseRow :=
  rows ++ [⟨newId, Dose.new strain method ingested⟩]

/-- The first phase of DoseManager.clear_expired:
`list(filter(lambda x: x.status is DoseStatus.expired, self._table.rows))`.
Each evaluation of the lambda calls now("utc") afresh inside Dose.status;
clock k is the reading of the k-th call, so the row at position k is tested
at time clock k. -/
def selectExpired (clock : ℕ → ℤ) : ℕ → List DoseRow → List DoseRow
  | _, [] => []
  | k, r :: rs =>
      if r.dose.status (clock k) = DoseStatus.expired then
        r :: selectExpired clock (k + 1) rs
      else
        selectExpired clock (k + 1) rs

/-- The rows clear_expired keeps: the complement of selectExpired under the
same per-row clock readings. -/
def keepUnexpired (clock : ℕ → ℤ) : ℕ → List DoseRow → List DoseRow
  | _, [] => []
  | k, r :: rs =>
      if r.dose.status (clock k) = DoseStatus.expired then
        keepUnexpired clock (k + 1) rs
      else
        r :: keepUnexpired clock (k + 1) rs

/-- DoseManager.clear_expired: build to_remove by filtering, then
`for dr in to_remove: self._table.rows.remove(dr)`, each remove deleting the
first occurrence of dr. -/
def clear_expired (rows : List DoseRow) (clock : ℕ → ℤ) : List DoseRow :=
  (selectExpired clock 0 rows).foldl (fun acc r => acc.erase r) rows

/-- The claim reading of clear_expired: every row tested against one single
"now" reading T taken at call time. -/
def clear_expired_single (rows : List DoseRow) (T : ℤ) : List DoseRow :=
  rows.filter (fun r => !(r.dose.status T == DoseStatus.expired))

/-!
The background poll loop (DoseManager._updater).  update_frequency is 0.3
seconds, so the sleep computation lives in ℚ (seconds), independent of the
integer clock ticks above.
-/

/-- DoseManager.update_frequency = 0.3 seconds. -/
def update_frequency : ℚ := 3 / 10

/-- The argument the loop body passes to time.sleep:
`self.update_frequency - last_duration`, with no clamping. -/
def sleep_arg (last_duration : ℚ) : ℚ :=
  update_frequency - last_duration

/-- time.sleep: raises ValueError (modelled as none) on a negative
argument, otherwise sleeps. -/
def time_sleepE (secs : ℚ) : Option Unit :=
  if secs < 0 then none else some ()

/-!
Spec-side definitions, written from the words of the spec for comparison
with the code-side functions above.
-/

/-- The spec formula for progress_fraction, read literally: remaining time
of the current period divided by the total length of that period, 1
if expired; division is total rational division. -/
def prog_claimed (d : Dose) (tnow : ℤ) : ℚ :=
  match d.current_period tnow with
  | some p => ((p.stop - tnow : ℤ) : ℚ) / (p.length : ℚ)
  | none => 1

/-- The amended spec formula for progress_fraction: remaining over length
when the current period has nonzero length, 1 when expired or when the
current period has zero length. -/
def prog_spec (d : Dose) (tnow : ℤ) : ℚ :=
  match d.current_period tnow with
  | some p => if p.length = 0 then 1 else ((p.stop - tnow : ℤ) : ℚ) / (p.length : ℚ)
  | none => 1

/-!
Concrete values used by counterexamples and witnesses.
-/

/-- A method with onset 2 and duration 3 (ticks). -/
def mC1 : IngestionMethod := ⟨"m", 2, 3⟩

/-- A dose of method mC1 ingested at time 0. -/
def dC1 : Dose := Dose.new "s" mC1 0

/-- A method with onset 1 and duration 1. -/
def mShort : IngestionMethod := ⟨"m", 1, 1⟩

/-- A dose of method mShort ingested at time 2: still processing at time 2. -/
def dFresh : Dose := Dose.new "fresh" mShort 2

/-- A dose of method mShort ingested at time 0: expired for times after 2. -/
def dOld : Dose := Dose.new "old" mShort 0

/-- Two-row table: a fresh dose first, an old dose second. -/
def rowsC2 : List DoseRow := [⟨0, dFresh⟩, ⟨1, dOld⟩]

/-- Clock readings for the clear_expired counterexample: reading k is
2 + 3k, so the first row is tested at 2 and the second at 5. -/
def clkC2 : ℕ → ℤ := fun k => 2 + 3 * k

/-- A method with onset 0: its processing window has zero length. -/
def mZeroOnset : IngestionMethod := ⟨"m", 0, 5⟩

/-- A dose of method mZeroOnset ingested at time 0. -/
def dZero : Dose := Dose.new "s" mZeroOnset 0

/-- A dose ingested at the future time 1 (timestamps are accepted as-is). -/
def dFuture : Dose := Dose.new "s" mShort 1

/-!
Helper lemmas.
-/

lemma containsTime_def (p : Period) (t : ℤ) :
    p.containsTime t ↔ p.start ≤ t ∧ t ≤ p.stop :=
  Iff.rfl

lemma status_eq_processing_iff (d : Dose) (t : ℤ) :
    d.status t = DoseStatus.processing ↔ d.processing_time.containsTime t := by
  unfold Dose.status
  split_ifs <;> simp [*]

lemma status_eq_active_iff (d : Dose) (t : ℤ) :
    d.status t = DoseStatus.active ↔
      ¬ d.processing_time.containsTime t ∧ d.active_time.containsTime t := by
  unfold Dose.status
  split_ifs <;> simp [*]

lemma status_eq_expired_iff (d : Dose) (t : ℤ) :
    d.status t = DoseStatus.expired ↔
      ¬ d.processing_time.containsTime t ∧ ¬ d.active_time.containsTime t := by
  unfold Dose.status
  split_ifs <;> simp [*]

/-- A period returned by current_period always holds the clock reading that
chose it. -/
lemma current_period_contains (d : Dose) (t : ℤ) (p : Period)
    (h : d.current_period t = some p) : p.containsTime t := by
  unfold Dose.current_period at h
  cases hst : d.status t with
  | processing =>
      rw [hst] at h
      injection h with h
      subst h
      exact (status_eq_processing_iff d t).mp hst
  | active =>
      rw [hst] at h
      injection h with h
      subst h
      exact ((status_eq_active_iff d t).mp hst).2
  | expired =>
      rw [hst] at h
      cases h

/-- prog_value never raises: the walrus truthiness guard keeps the division
away from zero-length periods. -/
lemma prog_valueE_eq_some (d : Dose) (t1 t2 : ℤ) :
    d.prog_valueE t1 t2 = some (d.prog_value t1 t2) := by
  unfold Dose.prog_valueE Dose.prog_value qdivE
  cases d.current_period t1 with
  | none => rfl
  | some p =>
      by_cases hl : p.length = 0
      · simp [hl]
      · have hq : (p.length : ℚ) ≠ 0 := Int.cast_ne_zero.mpr hl
        simp [hl, hq]

/-- Rows selected for removal all come from the table. -/
lemma mem_of_mem_selectExpired (clock : ℕ → ℤ) :
    ∀ (k : ℕ) (rows : List DoseRow) (r : DoseRow),
      r ∈ selectExpired clock k rows → r ∈ rows := by
  intro k rows
  induction rows generalizing k with
  | nil =>
      intro r h
      simp [selectExpired] at h
  | cons a rs ih =>
      intro r h
      simp only [selectExpired] at h
      split_ifs at h with hc
      · rcases List.mem_cons.mp h with he | hm
        · exact he ▸ List.mem_cons_self a rs
        · exact List.mem_cons_of_mem a (ih (k + 1) r hm)
      · exact List.mem_cons_of_mem a (ih (k + 1) r h)

/-- Erasing elements that avoid the head leaves the head in place. -/
lemma foldl_erase_cons_of_not_mem (r : DoseRow) :
    ∀ (L rs : List DoseRow), r ∉ L →
      L.foldl (fun acc x => acc.erase x) (r :: rs) =
        r :: L.foldl (fun acc x => acc.erase x) rs := by
  intro L
  induction L with
  | nil =>
      intro rs _
      rfl
  | cons a L ih =>
      intro rs hr
      have hra : r ≠ a := fun he => hr (he ▸ List.mem_cons_self a L)
      have hnr : r ∉ L := fun hm => hr (List.mem_cons_of_mem a hm)
      simp only [List.foldl_cons]
      rw [List.erase_cons_tail (by simpa using hra)]
      exact ih (rs.erase a) hnr

/-- The remove loop of clear_expired, run on the rows selected from index k
onward, keeps exactly the unexpired rows, provided the table has no
duplicate rows. -/
lemma foldl_erase_select_eq_keep (clock : ℕ → ℤ) :
    ∀ (rows : List DoseRow) (k : ℕ), rows.Nodup →
      (selectExpired clock k rows).foldl (fun acc x => acc.erase x) rows =
        keepUnexpired clock k rows := by
  intro rows
  induction rows with
  | nil =>
      intro k _
      rfl
  | cons a rs ih =>
      intro k hnd
      rw [List.nodup_cons] at hnd
      obtain ⟨ha, hnd⟩ := hnd
      by_cases hc : a.dose.status (clock k) = DoseStatus.expired
      · simp only [selectExpired, keepUnexpired, if_pos hc, List.foldl_cons,
          List.erase_cons_head]
        exact ih (k + 1) hnd
      · simp only [selectExpired, keepUnexpired, if_neg hc]
        rw [foldl_erase_cons_of_not_mem a (selectExpired clock (k + 1) rs) rs
          (fun hm => ha (mem_of_mem_selectExpired clock (k + 1) rs a hm))]
        rw [ih (k + 1) hnd]

/-!
Claim theorems.
-/

/-- Claim C1, counterexample.  dC1 has ingested 0, onset 2, duration 3.  The
claim says half-open windows: status active at T = ingested + onset = 2 and
expired at T = ingested + onset + duration = 5.  Period membership is
inclusive at both endpoints, so the code returns processing at 2 and active
at 5. -/
theorem c1_halfopen_boundary_counterexample :
    dC1.status 2 = DoseStatus.processing ∧ dC1.status 2 ≠ DoseStatus.active ∧
    dC1.status 5 = DoseStatus.active ∧ dC1.status 5 ≠ DoseStatus.expired := by
  decide

/-- Claim C1, amended.  The status of a dose at T is determined by
closed-interval membership, the processing window tested first: processing
if T is in [ingested, ingested + onset], else active if T is in
[ingested + onset, ingested + onset + duration], else expired.  In
particular, at T = ingested + onset the status is processing, and at
T = ingested + onset + duration it is active (for positive duration). -/
theorem c1_status_closed_interval_membership (strain : String)
    (m : IngestionMethod) (ing T : ℤ) (h1 : 0 ≤ m.onset) (h2 : 0 < m.duration) :
    ((Dose.new strain m ing).status T = DoseStatus.processing ↔
      ing ≤ T ∧ T ≤ ing + m.onset) ∧
    ((Dose.new strain m ing).status T = DoseStatus.active ↔
      ¬(ing ≤ T ∧ T ≤ ing + m.onset) ∧
        ing + m.onset ≤ T ∧ T ≤ ing + m.onset + m.duration) ∧
    ((Dose.new strain m ing).status T = DoseStatus.expired ↔
      ¬(ing ≤ T ∧ T ≤ ing + m.onset) ∧
        ¬(ing + m.onset ≤ T ∧ T ≤ ing + m.onset + m.duration)) ∧
    (Dose.new strain m ing).status (ing + m.onset) = DoseStatus.processing ∧
    (Dose.new strain m ing).status (ing + m.onset + m.duration) =
      DoseStatus.active := by
  refine ⟨?_, ?_, ?_, ?_, ?_⟩
  · simp [status_eq_processing_iff, containsTime_def, Dose.new]
  · simp [status_eq_active_iff, containsTime_def, Dose.new]
  · simp [status_eq_expired_iff, containsTime_def, Dose.new]
  · simp only [status_eq_processing_iff, containsTime_def, Dose.new]
    omega
  · simp only [status_eq_active_iff, containsTime_def, Dose.new]
    omega

/-- Witness for c1_status_closed_interval_membership at strain "s", method
mC1 (onset 2, duration 3), ingested 0, T = 1. -/
theorem c1_status_closed_interval_membership_witness :
    (0 : ℤ) ≤ mC1.onset ∧ (0 : ℤ) < mC1.duration ∧
    (((Dose.new "s" mC1 0).status 1 = DoseStatus.processing ↔
      (0 : ℤ) ≤ 1 ∧ (1 : ℤ) ≤ 0 + mC1.onset) ∧
    ((Dose.new "s" mC1 0).status 1 = DoseStatus.active ↔
      ¬((0 : ℤ) ≤ 1 ∧ (1 : ℤ) ≤ 0 + mC1.onset) ∧
        0 + mC1.onset ≤ 1 ∧ (1 : ℤ) ≤ 0 + mC1.onset + mC1.duration) ∧
    ((Dose.new "s" mC1 0).status 1 = DoseStatus.expired ↔
      ¬((0 : ℤ) ≤ 1 ∧ (1 : ℤ) ≤ 0 + mC1.onset) ∧
        ¬(0 + mC1.onset ≤ 1 ∧ (1 : ℤ) ≤ 0 + mC1.onset + mC1.duration)) ∧
    (Dose.new "s" mC1 0).status (0 + mC1.onset) = DoseStatus.processing ∧
    (Dose.new "s" mC1 0).status (0 + mC1.onset + mC1.duration) =
      DoseStatus.active) :=
  ⟨by decide, by decide,
    c1_status_closed_interval_membership "s" mC1 0 1 (by decide) (by decide)⟩

/-- Claim C2, counterexample.  rowsC2 holds a fresh dose (row 0) and an
expired-by-time-5 dose (row 1); the clock readings during the call are 2 for
row 0 and 5 for row 1.  The code removes exactly row 1, while a single
"now" reading taken at call time (2) removes nothing, and a single reading
at the end of the call (5) removes both rows: no single reading reproduces
the result. -/
theorem c2_single_reading_counterexample :
    clear_expired rowsC2 clkC2 = [⟨0, dFresh⟩] ∧
    clear_expired_single rowsC2 (clkC2 0) = [⟨0, dFresh⟩, ⟨1, dOld⟩] ∧
    clear_expired_single rowsC2 (clkC2 1) = [] ∧
    clear_expired rowsC2 clkC2 ≠ clear_expired_single rowsC2 (clkC2 0) ∧
    clear_expired rowsC2 clkC2 ≠ clear_expired_single rowsC2 (clkC2 1) := by
  decide

/-- Claim C2, amended.  clear_expired removes exactly the rows whose status
is expired at that row's own now() reading, taken while the filter visits
the row, and no others, for any collection of distinct rows and any
sequence of clock readings. -/
theorem c2_clear_expired_removes_per_row_expired (rows : List DoseRow)
    (clock : ℕ → ℤ) (h : rows.Nodup) :
    clear_expired rows clock = keepUnexpired clock 0 rows :=
  foldl_erase_select_eq_keep clock rows 0 h

/-- Witness for c2_clear_expired_removes_per_row_expired on the two-row
table rowsC2 with clock readings clkC2. -/
theorem c2_clear_expired_removes_per_row_expired_witness :
    rowsC2.Nodup ∧ clear_expired rowsC2 clkC2 = keepUnexpired clkC2 0 rowsC2 :=
  ⟨by decide, c2_clear_expired_removes_per_row_expired rowsC2 clkC2 (by decide)⟩

/-- Claim C3, code bug.  The loop body passes
update_frequency - last_duration to time.sleep with no clamping: a pass of
1 second against the 0.3 second cadence yields a sleep argument of -0.7,
which time.sleep rejects with ValueError (modelled as none), instead of the
clamped non-negative sleep the spec prescribes. -/
theorem c3_negative_sleep_not_clamped :
    sleep_arg 1 = -(7 / 10) ∧ sleep_arg 1 < 0 ∧
    time_sleepE (sleep_arg 1) = none := by
  norm_num [sleep_arg, update_frequency, time_sleepE]

/-- Claim C4.  For a fixed dose, status never moves backwards in the order
processing, active, expired: for ingested ≤ t1 ≤ t2, the rank of the status
at t1 is at most the rank at t2. -/
theorem c4_status_monotone (strain : String) (m : IngestionMethod)
    (ing t1 t2 : ℤ) (h0 : ing ≤ t1) (h12 : t1 ≤ t2) :
    ((Dose.new strain m ing).status t1).rank ≤
      ((Dose.new strain m ing).status t2).rank := by
  simp only [Dose.status, Dose.new, containsTime_def]
  split_ifs <;> simp only [DoseStatus.rank] <;> omega

/-- Witness for c4_status_monotone with method mC1, ingested 0, t1 = 1,
t2 = 4. -/
theorem c4_status_monotone_witness :
    (0 : ℤ) ≤ 1 ∧ (1 : ℤ) ≤ 4 ∧
    ((Dose.new "s" mC1 0).status 1).rank ≤ ((Dose.new "s" mC1 0).status 4).rank :=
  ⟨by decide, by decide, c4_status_monotone "s" mC1 0 1 4 (by decide) (by decide)⟩

/-- Claim C5, counterexample.  dFuture is ingested at time 1; resetting it
at current time 0 (reachable, since add_dose and Dose.new accept
caller-supplied timestamps as-is, including future ones) yields a dose whose
ingested timestamp is strictly below the original, refuting ingested ≥
d.ingested; strain and method are still preserved. -/
theorem c5_future_dose_counterexample :
    (dFuture.now_from_this 0).strain = dFuture.strain ∧
    (dFuture.now_from_this 0).method = dFuture.method ∧
    (dFuture.now_from_this 0).ingested < dFuture.ingested := by
  decide

/-- Claim C5, amended.  now_from_this preserves strain and method and sets
ingested to the current clock reading; whenever the original ingested
timestamp is not in the future of that reading, the new ingested timestamp
is at least the old one. -/
theorem c5_now_from_this_preserves (d : Dose) (tnow : ℤ)
    (h : d.ingested ≤ tnow) :
    (d.now_from_this tnow).strain = d.strain ∧
    (d.now_from_this tnow).method = d.method ∧
    (d.now_from_this tnow).ingested = tnow ∧
    d.ingested ≤ (d.now_from_this tnow).ingested :=
  ⟨rfl, rfl, rfl, h⟩

/-- Witness for c5_now_from_this_preserves: dOld (ingested 0) reset at
time 5. -/
theorem c5_now_from_this_preserves_witness :
    dOld.ingested ≤ (5 : ℤ) ∧
    ((dOld.now_from_this 5).strain = dOld.strain ∧
      (dOld.now_from_this 5).method = dOld.method ∧
      (dOld.now_from_this 5).ingested = 5 ∧
      dOld.ingested ≤ (dOld.now_from_this 5).ingested) :=
  ⟨by decide, c5_now_from_this_preserves dOld 5 (by decide)⟩

/-- Claim C6.  For a dose built from a method with non-negative onset and
duration, prog_value raises no exception: the exception-explicit
prog_valueE returns some value, the division guarded away from zero-length
periods by the walrus truthiness check.  status, current_period and
time_left are total functions by construction. -/
theorem c6_derived_state_total (strain : String) (m : IngestionMethod)
    (ing t : ℤ) (_h1 : 0 ≤ m.onset) (_h2 : 0 ≤ m.duration) :
    ((Dose.new strain m ing).prog_valueE t t).isSome = true ∧
    (Dose.new strain m ing).prog_valueE t t =
      some ((Dose.new strain m ing).prog_value t t) := by
  refine ⟨?_, prog_valueE_eq_some _ t t⟩
  rw [prog_valueE_eq_some]
  rfl

/-- Witness for c6_derived_state_total: the zero-onset method mZeroOnset at
the ingestion instant, the input closest to a division by zero. -/
theorem c6_derived_state_total_witness :
    (0 : ℤ) ≤ mZeroOnset.onset ∧ (0 : ℤ) ≤ mZeroOnset.duration ∧
    (((Dose.new "s" mZeroOnset 0).prog_valueE 0 0).isSome = true ∧
      (Dose.new "s" mZeroOnset 0).prog_valueE 0 0 =
        some ((Dose.new "s" mZeroOnset 0).prog_value 0 0)) :=
  ⟨by decide, by decide,
    c6_derived_state_total "s" mZeroOnset 0 0 (by decide) (by decide)⟩

/-- Claim C7.  Every Dose built by new (and by now_from_this, which calls
new) satisfies the contiguity invariant: the processing window runs from
ingested to ingested + onset, the active window starts exactly where the
processing window stops, and stops at ingested + onset + duration. -/
theorem c7_windows_contiguous (strain : String) (m : IngestionMethod)
    (ing tnow : ℤ) (d : Dose) :
    (Dose.new strain m ing).processing_time.start = ing ∧
    (Dose.new strain m ing).processing_time.stop = ing + m.onset ∧
    (Dose.new strain m ing).active_time.start =
      (Dose.new strain m ing).processing_time.stop ∧
    (Dose.new strain m ing).active_time.stop = ing + m.onset + m.duration ∧
    (d.now_from_this tnow).processing_time.stop =
      (d.now_from_this tnow).active_time.start :=
  ⟨rfl, rfl, rfl, rfl, rfl⟩

/-- Claim C8, counterexample.  dZero has onset 0, so at the ingestion
instant its current period (the processing window) has zero length: the
code returns 1 through the falsy-period branch, while the claimed formula
remaining / length is a division by zero (0/0, i.e. 0 as a total rational
division and an undefined real ratio). -/
theorem c8_zero_length_counterexample :
    dZero.status 0 = DoseStatus.processing ∧
    dZero.prog_value 0 0 = 1 ∧
    prog_claimed dZero 0 = 0 ∧
    dZero.prog_value 0 0 ≠ prog_claimed dZero 0 := by
  have h1 : dZero.prog_value 0 0 = 1 := by decide
  have h2 : prog_claimed dZero 0 = 0 := by
    norm_num [prog_claimed, Dose.current_period, Dose.status, dZero, Dose.new,
      mZeroOnset, Period.containsTime, Period.length]
  refine ⟨by decide, h1, h2, ?_⟩
  rw [h1, h2]
  norm_num

/-- Claim C8, amended.  prog_value equals the remaining time of the current
period divided by that period's total length whenever the current period
has nonzero length, and equals 1 when the dose is expired and also when the
current period has zero length (the falsy-period branch). -/
theorem c8_prog_value_eq_spec (d : Dose) (t : ℤ) :
    d.prog_value t t = prog_spec d t := by
  cases hc : d.current_period t with
  | none => simp only [Dose.prog_value, prog_spec, hc]
  | some p =>
      have ht : t ≤ p.stop := (current_period_contains d t p hc).2
      simp only [Dose.prog_value, prog_spec, hc]
      rw [abs_of_nonneg (by omega : (0 : ℤ) ≤ p.stop - t)]


/-- Claim C9.  At the ingestion instant, every dose with non-negative onset
is processing. -/
theorem c9_status_at_ingested (strain : String) (m : IngestionMethod)
    (ing : ℤ) (h : 0 ≤ m.onset) :
    (Dose.new strain m ing).status ing = DoseStatus.processing := by
  simp only [status_eq_processing_iff, containsTime_def, Dose.new]
  omega

/-- Witness for c9_status_at_ingested: dC1 at its ingestion time 0. -/
theorem c9_status_at_ingested_witness :
    (0 : ℤ) ≤ mC1.onset ∧ (Dose.new "s" mC1 0).status 0 = DoseStatus.processing :=
  ⟨by decide, c9_status_at_ingested "s" mC1 0 (by decide)⟩

/-- Claim C10.  At any time strictly before the ingestion timestamp the
status evaluates to expired (neither closed window reaches below its
start), and this is reachable at the public interface: add_dose appends a
row built by Dose.new from the caller-supplied timestamp as-is, future
timestamps included. -/
theorem c10_status_before_ingested_expired (rows : List DoseRow) (i : ℕ)
    (strain : String) (m : IngestionMethod) (ing T : ℤ)
    (honset : 0 ≤ m.onset) (hT : T < ing) :
    (Dose.new strain m ing).status T = DoseStatus.expired ∧
    add_dose rows i strain m ing = rows ++ [⟨i, Dose.new strain m ing⟩] := by
  constructor
  · simp only [status_eq_expired_iff, containsTime_def, Dose.new]
    omega
  · rfl

/-- Witness for c10_status_before_ingested_expired: dFuture (ingested at 1)
evaluated at time 0, appended to an empty table. -/
theorem c10_status_before_ingested_expired_witness :
    (0 : ℤ) ≤ mShort.onset ∧ (0 : ℤ) < 1 ∧
    ((Dose.new "s" mShort 1).status 0 = DoseStatus.expired ∧
      add_dose [] 0 "s" mShort 1 = [] ++ [⟨0, Dose.new "s" mShort 1⟩]) :=
  ⟨by decide, by decide,
    c10_status_before_ingested_expired [] 0 "s" mShort 1 0 (by decide) (by decide)⟩

end Doser
